import Mathlib

/-!
Verification of the PyQwerty Discord bot's response-decision and
style-normalization core, shallowly embedded from the Python sources
(`src/bot/src/ai/style_validator.py`, `src/bot/src/ai/llm_client.py`,
`src/bot/src/core/bot.py`).  Text is modelled as `List Char` (Python `str`
over ASCII), clock values and probabilities as `Rat`, and the process-local
entropy draws (`random.random()`, `random.choice`) as explicit arguments.
-/

/-- Convert a Lean string literal to the `List Char` text representation. -/
def S (s : String) : List Char := s.data

/-- The apostrophe character (written via its code point). -/
def apos : Char := Char.ofNat 39

/-- The space character. -/
def spaceChar : Char := Char.ofNat 32

/-- The whitespace characters recognised by Python `str.split()` /
`str.strip()` for ASCII text: space, tab, newline, carriage return,
vertical tab, form feed. -/
def wsChars : List Char :=
  [Char.ofNat 32, Char.ofNat 9, Char.ofNat 10, Char.ofNat 13,
   Char.ofNat 11, Char.ofNat 12]

/-- Is `c` Python whitespace? -/
def isPyWs (c : Char) : Bool := wsChars.contains c

/-- Python `str.strip()`: drop leading and trailing whitespace. -/
def pyStrip (l : List Char) : List Char :=
  ((l.dropWhile isPyWs).reverse.dropWhile isPyWs).reverse

/-- Python `str.split()` with no separator: split on runs of whitespace,
discarding empty pieces. -/
def pySplit (l : List Char) : List (List Char) :=
  (List.splitOnP isPyWs l).filter (fun w => !w.isEmpty)

/-- Python `' '.join(words)`. -/
def joinSpace (ws : List (List Char)) : List Char :=
  List.intercalate [spaceChar] ws

/-- Does `c` have case (ASCII letter)?  Python `str.isupper`/`islower`
consider only cased characters. -/
def isCasedChar (c : Char) : Bool := c.isUpper || c.isLower

/-- Python `str.isupper()`: at least one cased character and no lowercase
character (ASCII model). -/
def pyIsUpper (w : List Char) : Bool :=
  w.any isCasedChar && !(w.any Char.isLower)

/-- Python `str.islower()`: at least one cased character and no uppercase
character (ASCII model). -/
def pyIsLower (w : List Char) : Bool :=
  w.any isCasedChar && !(w.any Char.isUpper)

/-- Python `str.lower()` (ASCII model). -/
def pyLower (w : List Char) : List Char := w.map Char.toLower

/-- Python `str.rstrip(set)`: drop trailing characters belonging to `set`. -/
def pyRstripSet (set : List Char) (l : List Char) : List Char :=
  (l.reverse.dropWhile (fun c => set.contains c)).reverse

/-- Python `needle in hay` for strings: substring containment. -/
def substr (needle hay : List Char) : Bool :=
  (List.range (hay.length + 1)).any (fun i => needle.isPrefixOf (hay.drop i))

/-! ## StyleValidator (`src/bot/src/ai/style_validator.py`)

The validator's numeric defaults (`self.patterns`) never influence the
functions below, so only the text pipeline is embedded.  `random.choice`
in `get_fallback_response` is modelled by an explicit index argument. -/

/-- The optional `!?` part of the mention regex: skip a single leading `!`. -/
def skipBang (l : List Char) : List Char :=
  match l with
  | [] => []
  | c :: r => if c = '!' then r else c :: r

/-- After `<@` and the optional `!`: match `\d+>` and return the remainder. -/
def matchMentionTail (rest2 : List Char) : Option (List Char) :=
  if (rest2.takeWhile Char.isDigit).isEmpty then none
  else
    match rest2.dropWhile Char.isDigit with
    | [] => none
    | c :: r => if c = '>' then some r else none

/-- Match the regex `<@!?\d+>` at the start of the input: `<@`, an optional
`!`, one or more digits, `>`.  Returns the remainder after the match. -/
def matchMention (l : List Char) : Option (List Char) :=
  match l with
  | a :: b :: rest =>
    if a = '<' then if b = '@' then matchMentionTail (skipBang rest) else none
    else none
  | _ => none

/-- The scan of `re.sub(r'<@!?\d+>', '', text)`, left to right, replacing
each non-overlapping match with nothing.  The recursion is bounded by a
fuel argument (one unit per consumed character; a match always consumes at
least one character, see `matchMention_length`), so the function reduces
definitionally; `removeMentionsCoreF_congr` shows any sufficient fuel
computes the same scan. -/
def removeMentionsCoreF : Nat → List Char → List Char
  | 0, l => l
  | _ + 1, [] => []
  | f + 1, c :: rest =>
    match matchMention (c :: rest) with
    | some r => removeMentionsCoreF f r
    | none => c :: removeMentionsCoreF f rest

/-- One pass of `re.sub(r'<@!?\d+>', '', text)`. -/
def removeMentionsCore (l : List Char) : List Char :=
  removeMentionsCoreF l.length l

/-- Embeds `StyleValidator.remove_mentions`: delete every `<@!?\d+>` token, strip,
then collapse whitespace runs via `' '.join(text.split())`. -/
def remove_mentions (text : List Char) : List Char :=
  joinSpace (pySplit (pyStrip (removeMentionsCore text)))

/-- Per-word case rule of `StyleValidator.enforce_capitalization`: keep
ALL-CAPS words of length > 1, lowercase words containing an apostrophe,
lowercase everything else. -/
def capWord (w : List Char) : List Char :=
  if pyIsUpper w && decide (1 < w.length) then w
  else if w.contains apos then pyLower w
  else pyLower w

/-- Embeds `StyleValidator.enforce_capitalization`: split into words, apply the
case rule, rejoin with single spaces. -/
def enforce_capitalization (text : List Char) : List Char :=
  joinSpace ((pySplit text).map capWord)

/-- The characters stripped from the end by
`StyleValidator.remove_ending_punctuation`. -/
def endPunct : List Char := ['.', ',', '!', '?', ';']

/-- Embeds `StyleValidator.remove_ending_punctuation`: `text.rstrip('.,!?;')`,
then return the ellipsis-suffixed text unchanged if it still ends in
`...` (after the rstrip no character of the strip set remains at the end,
so this branch mirrors the source's dead `endswith('...')` check). -/
def remove_ending_punctuation (text : List Char) : List Char :=
  let t := pyRstripSet endPunct text
  if (S "...").isSuffixOf t then t else t

/-- The characters of the sentence-splitting regex `[.!?]` in
`StyleValidator.adjust_message_length`. -/
def sentenceEnd : List Char := ['.', '!', '?']

/-- Embeds `StyleValidator.adjust_message_length`: words > 20 → first piece of
`re.split(r'[.!?]', text)` stripped (`re.split` always returns a non-empty
list, so the source's `if sentences:` guard always holds); 15 < words ≤ 20
→ first 12 words; otherwise unchanged. -/
def adjust_message_length (text : List Char) : List Char :=
  let words := pySplit text
  if 15 < words.length then
    if 20 < words.length then
      pyStrip (text.takeWhile (fun c => !sentenceEnd.contains c))
    else joinSpace (words.take 12)
  else text

/-- Is `c` a regex word character (`\w` for ASCII): letter, digit or `_`? -/
def isWordChar (c : Char) : Bool := c.isAlpha || c.isDigit || c = '_'

/-- Case-insensitive literal match at the head of the input; returns the
remainder on success. -/
def ciStrip : List Char → List Char → Option (List Char)
  | [], rest => some rest
  | _ :: _, [] => none
  | p :: ps, c :: cs =>
    if p.toLower = c.toLower then ciStrip ps cs else none

/-- One `re.sub(r'\bPAT\b', repl, text, flags=IGNORECASE)` scan for a
non-empty literal `PAT = p0 :: ps` that starts and ends with a word
character (true of every slang pattern).  `prevW` records whether the
character before the current position is a word character, so `\b` holds
on the left exactly when `prevW` is false; on the right it requires the
remainder to start with a non-word character or be empty.  After a
replacement the scan resumes past the matched text, whose last character
is a word character. -/
def subScanF (p0 : Char) (ps repl : List Char) :
    Nat → Bool → List Char → List Char
  | 0, _, l => l
  | _ + 1, _, [] => []
  | f + 1, prevW, c :: rest =>
    if prevW then c :: subScanF p0 ps repl f (isWordChar c) rest
    else
      match ciStrip (p0 :: ps) (c :: rest) with
      | some rem =>
        if (match rem with | [] => true | d :: _ => !isWordChar d) then
          repl ++ subScanF p0 ps repl f true rem
        else c :: subScanF p0 ps repl f (isWordChar c) rest
      | none => c :: subScanF p0 ps repl f (isWordChar c) rest

/-- The boundary-aware scan of one slang `re.sub`, with fuel instantiated
to the text length (sufficient: each step consumes at least one
character, see `subScanF_congr`). -/
def subScan (p0 : Char) (ps repl : List Char) (prevW : Bool)
    (l : List Char) : List Char :=
  subScanF p0 ps repl l.length prevW l

/-- Embeds `re.sub` of one whole-word, case-insensitive slang rule. -/
def subst (pat repl text : List Char) : List Char :=
  match pat with
  | [] => text
  | p :: ps => subScan p ps repl false text

/-- The ordered replacement table of
`StyleValidator.apply_authentic_slang`. -/
def slangRules : List (List Char × List Char) :=
  [(S "you", S "u"),
   (S "your", S "ur"),
   (S "because", S "cuz"),
   (S "for real", S "fr"),
   (S "though", S "tho"),
   (S "something", S "smth"),
   (S "want to", S "wanna"),
   (S "going to", S "gonna"),
   (S "don" ++ [apos] ++ S "t know", S "idk"),
   (S "ok", S "ok")]

/-- Embeds `StyleValidator.apply_authentic_slang`: apply the rules sequentially,
each over the whole string. -/
def apply_authentic_slang (text : List Char) : List Char :=
  slangRules.foldl (fun acc rule => subst rule.1 rule.2 acc) text

/-- Counting rule of `StyleValidator.is_valid_response`: ALL-CAPS words
are skipped (`continue`), lowercase words — with or without an apostrophe
— are counted as properly cased. -/
def properlyCase (w : List Char) : Bool :=
  if pyIsUpper w then false
  else if w.contains apos && pyIsLower w then true
  else if pyIsLower w then true
  else false

/-- Embeds `StyleValidator.is_valid_response`: reject empty/whitespace text, a
word count of 0 or above 25, or a properly-cased ratio below 80%
(`proper / len(words) < 0.8` compared exactly as `5 * proper < 4 * len`). -/
def is_valid_response (response : List Char) : Bool :=
  if response.isEmpty || (pyStrip response).isEmpty then false
  else
    let words := pySplit response
    if words.length = 0 || 25 < words.length then false
    else
      let proper := (words.filter properlyCase).length
      if 0 < words.length && 5 * proper < 4 * words.length then false
      else true

/-- The canned fallback pool of `StyleValidator.get_fallback_response`;
`random.choice` is modelled by the index `k`. -/
def fallback_responses : List (List Char) :=
  [S "nah", S "fr", S "idk", S "crazy", S "bro", S "yeah", S "wtf", S "lmao"]

/-- Embeds `StyleValidator.get_fallback_response` with explicit entropy `k`. -/
def get_fallback_response (k : Nat) : List Char :=
  fallback_responses.getD (k % 8) []

/-- Embeds `StyleValidator.validate_and_adjust` (its single non-`self` parameter
is the raw response; `k` models the `random.choice` draw of the fallback
path): strip, remove mentions, enforce capitalization, remove ending
punctuation, adjust length, apply slang, then fall back on an invalid
result. -/
def validate_and_adjust (k : Nat) (response : List Char) : List Char :=
  if response.isEmpty || (pyStrip response).isEmpty then []
  else
    let a1 := pyStrip response
    let a2 := remove_mentions a1
    let a3 := enforce_capitalization a2
    let a4 := remove_ending_punctuation a3
    let a5 := adjust_message_length a4
    let a6 := apply_authentic_slang a5
    if !is_valid_response a6 then get_fallback_response k else a6

/-! ## PyQwertyBot (`src/bot/src/core/bot.py`)

Per-channel state (`message_history`, `last_response_time`,
`patience_level`) is embedded explicitly; timestamps and the entropy draw
of `random.random()` are `Rat` arguments. -/

/-- An inbound Discord message event as seen by `on_message`. -/
structure InMsg where
  id : Nat
  author_id : Nat
  author_is_bot : Bool
  author_name : List Char
  content : List Char
  channel : Nat
  in_guild : Bool
  created_at : Rat
  reference : Option Nat
  mentions : List Nat
  attachment_count : Nat
deriving DecidableEq, Repr

/-- A `message_data` dictionary stored in `message_history`
(`PyQwertyBot.update_message_history`). -/
structure HistEntry where
  id : Nat
  author_id : Nat
  author_name : List Char
  content : List Char
  timestamp : Rat
  reply_to : Option Nat
  mentions : List Nat
  attachments : Bool
deriving DecidableEq, Repr

instance : Inhabited HistEntry :=
  ⟨⟨0, 0, [], [], 0, none, [], false⟩⟩

/-- The `message_data` record built from a message in
`update_message_history`. -/
def toEntry (m : InMsg) : HistEntry :=
  ⟨m.id, m.author_id, m.author_name, m.content, m.created_at,
   m.reference, m.mentions, decide (0 < m.attachment_count)⟩

/-- The history mutation of `PyQwertyBot.update_message_history`: append
the entry, then keep only the last 25. -/
def update_message_history (hist : List HistEntry) (m : InMsg) :
    List HistEntry :=
  let h := hist ++ [toEntry m]
  if 25 < h.length then h.drop (h.length - 25) else h

/-- Does the content start with the admin prefix checked at the top of
`on_message` (`message.content.startswith('!py')`)? -/
def startsWithPyCmd (content : List Char) : Bool :=
  (S "!py").isPrefixOf content

/-- The history component of `PyQwertyBot.on_message`: bot-authored and
non-guild messages return immediately, `!py` admin commands are handled
without touching history, every other message is appended to its
channel's history.  (Responding never appends: the bot's own sends are
filtered by the `message.author.bot` check when they echo back.) -/
def on_message_hist (st : Nat → List HistEntry) (m : InMsg) :
    Nat → List HistEntry :=
  if m.author_is_bot || !m.in_guild then st
  else if startsWithPyCmd m.content then st
  else fun c => if c = m.channel then update_message_history (st c) m else st c

/-- Process a sequence of inbound messages starting from a given
history state. -/
def run_messages (st : Nat → List HistEntry) (msgs : List InMsg) :
    Nat → List HistEntry :=
  msgs.foldl on_message_hist st

/-- The empty initial history state. -/
def emptyHist : Nat → List HistEntry := fun _ => []

/-- Bot configuration fields read by `should_respond`. -/
structure BotConfig where
  is_active : Bool
  base_response_rate : Rat
  rate_limit_seconds : Rat
deriving DecidableEq

/-- Embeds `self.client.user in message.mentions` with an optional bot identity. -/
def bot_mentioned_in (botUser : Option Nat) (mentions : List Nat) : Bool :=
  match botUser with
  | some u => mentions.contains u
  | none => false

/-- The `gaming_keywords` list of `should_respond`. -/
def gaming_keywords : List (List Char) :=
  [S "valorant", S "minecraft", S "game", S "play", S "rank", S "clutch",
   S "gg"]

/-- The probability computation of `PyQwertyBot.should_respond` (lines
151–179): base rate, mention / question / gaming-keyword bonuses, recency
bonus, then `min(probability, 0.85)`. -/
def response_probability (cfg : BotConfig) (botUser : Option Nat)
    (last_response_time : Option Rat) (now : Rat) (msg : InMsg) : Rat :=
  let p1 :=
    if bot_mentioned_in botUser msg.mentions then 1
    else if !msg.mentions.isEmpty then cfg.base_response_rate + 3/10
    else cfg.base_response_rate
  let p2 := if msg.content.contains '?' then p1 + 3/10 else p1
  let contentLower := pyLower msg.content
  let p3 :=
    if gaming_keywords.any (fun kw => substr kw contentLower) then p2 + 3/10
    else p2
  let p4 :=
    match last_response_time with
    | some t => if 2 < (now - t) / 3600 then p3 + 2/10 else p3
    | none => p3 + 2/10
  min p4 (85/100)

/-- Embeds `PyQwertyBot.should_respond`: bot authors and an inactive bot are
rejected, then the hard per-channel rate limit, then the weighted
coin-flip `random.random() < probability` with `draw` as the entropy. -/
def should_respond (cfg : BotConfig) (botUser : Option Nat)
    (last_response_time : Option Rat) (now draw : Rat) (msg : InMsg) :
    Bool :=
  if msg.author_is_bot then false
  else if !cfg.is_active then false
  else if (match last_response_time with
           | some t => decide (now - t < cfg.rate_limit_seconds)
           | none => false) then false
  else decide (draw < response_probability cfg botUser last_response_time now msg)

/-- Embeds `PyQwertyBot.should_use_reply` (lines 400–429): reply when the bot is
mentioned in the trigger, the raw generated text contains `<@`, the
trigger contains `?`, or the last two history entries are both authored
by the trigger's author.  `hist` is `self.message_history[channel]` at
call time, which already contains the trigger message as its last entry. -/
def should_use_reply (botUser : Option Nat) (original_response : List Char)
    (trigger : InMsg) (hist : List HistEntry) : Bool :=
  if bot_mentioned_in botUser trigger.mentions then true
  else if substr (S "<@") original_response then true
  else if trigger.content.contains '?' then true
  else
    let n := hist.length
    if 2 ≤ n then
      ((hist.getD (n - 1) default).author_id = trigger.author_id
        && (hist.getD (n - 2) default).author_id = trigger.author_id : Bool)
    else false

/-- Helper for `int(...)`: the numeric value of a digit string. -/
def natOfDigits (l : List Char) : Nat :=
  l.foldl (fun acc c => acc * 10 + (c.toNat - 48)) 0

/-- No two consecutive underscores (Python integer-literal rule). -/
def noDoubleUnderscore : List Char → Bool
  | a :: b :: rest => !(a = '_' && b = '_') && noDoubleUnderscore (b :: rest)
  | _ => true

/-- The unsigned digit part accepted by Python `int()`: non-empty, starts
and ends with a digit, contains only digits and single underscores. -/
def parseDigitsU (l : List Char) : Option Nat :=
  match l with
  | [] => none
  | c :: _ =>
    if c.isDigit && l.all (fun d => d.isDigit || d = '_')
        && noDoubleUnderscore l
        && (match l.getLast? with | some d => d.isDigit | none => false) then
      some (natOfDigits (l.filter Char.isDigit))
    else none

/-- Python `int(s)` for base-10 string input: strip whitespace, optional
sign, digits with single embedded underscores; anything else raises
`ValueError` (modelled as `none`). -/
def parsePyInt (s : List Char) : Option Int :=
  match pyStrip s with
  | [] => none
  | c :: rest =>
    if c = '-' then (parseDigitsU rest).map (fun n => -(n : Int))
    else if c = '+' then (parseDigitsU rest).map (fun n => (n : Int))
    else (parseDigitsU (c :: rest)).map (fun n => (n : Int))

/-- The patience transition of `PyQwertyBot.assess_patience_level` (lines
225–240): `int(response.strip())`, clamped by `max(0, min(100, n))`; a
`ValueError` leaves the stored patience unchanged. -/
def assess_patience_level (prior : Int) (reply : List Char) : Int :=
  match parsePyInt (pyStrip reply) with
  | none => prior
  | some n => max 0 (min 100 n)

/-! ## OpenRouterClient (`src/bot/src/ai/llm_client.py`) -/

/-- One observable outcome of a single request to the generation
service, as distinguished by `OpenRouterClient.generate_response`. -/
inductive GenOutcome where
  /-- HTTP 200 with a non-empty `choices` list; carries the content. -/
  | ok (content : List Char)
  /-- HTTP 200 whose body has no choices. -/
  | noChoices
  /-- A non-200 HTTP status code (429 is the rate-limit signal). -/
  | status (code : Nat)
  /-- Raised `asyncio.TimeoutError`. -/
  | timeout
  /-- Any other exception. -/
  | exn
deriving DecidableEq, Repr

/-- Embeds `OpenRouterClient.generate_response` over the sequence of outcomes the
service produces for the successive requests: 200-with-choices returns the
content, 200-without-choices / non-429 errors / timeouts / exceptions
return `None`, and a 429 sleeps and calls `generate_response` again on the
same prompt (recursively, consuming the next outcome). -/
def generate_response : List GenOutcome → Option (List Char)
  | [] => none
  | .ok content :: _ => some content
  | .noChoices :: _ => none
  | .status code :: rest =>
    if code = 429 then generate_response rest else none
  | .timeout :: _ => none
  | .exn :: _ => none

/-- How many requests `generate_response` issues before it returns, when
the service produces the given outcome sequence. -/
def attempts_used : List GenOutcome → Nat
  | [] => 0
  | .status code :: rest => if code = 429 then 1 + attempts_used rest else 1
  | _ :: _ => 1

/-! ## The dispatcher's normalizer call (`bot.py` line 279)

`generate_and_send_response` invokes
`self.style_validator.validate_and_adjust(response, self.allow_long_messages)`
with two positional arguments, while the method's definition
(`style_validator.py` line 63) is `def validate_and_adjust(self, response)`
— one non-`self` parameter.  Python raises `TypeError` on the arity
mismatch, modelled by `pyCallMethod` returning `none`. -/

/-- Python call semantics for positional arity: a call with `args`
positional arguments to a method declaring `params` non-`self` parameters
raises `TypeError` (here `none`) unless the counts agree. -/
def pyCallMethod (params args : Nat) (result : List Char) :
    Option (List Char) :=
  if args = params then some result else none

/-- Non-`self` parameter count of `StyleValidator.validate_and_adjust`
(`def validate_and_adjust(self, response)`). -/
def validate_and_adjust_params : Nat := 1

/-- Positional argument count of the dispatcher's call
`validate_and_adjust(response, self.allow_long_messages)`. -/
def dispatcher_validate_args : Nat := 2

/-- The dispatcher's attempt to normalize a generated response
(`bot.py` line 279), with the Python call semantics made explicit. -/
def dispatcher_validation (k : Nat) (response : List Char) :
    Option (List Char) :=
  pyCallMethod validate_and_adjust_params dispatcher_validate_args
    (validate_and_adjust k response)

/-! ## Inputs and statements used by the verification -/

/-- The reply rule exactly as the specification states it: its fourth
disjunct reads the TWO history entries immediately preceding the trigger
message (the trigger itself being the last history entry at call time, the
preceding entries sit at positions `n - 2` and `n - 3`). -/
def claimed_should_reply (botUser : Option Nat) (original_response : List Char)
    (trigger : InMsg) (hist : List HistEntry) : Bool :=
  bot_mentioned_in botUser trigger.mentions
  || substr (S "<@") original_response
  || trigger.content.contains '?'
  || (decide (3 ≤ hist.length)
      && decide ((hist.getD (hist.length - 2) default).author_id
           = trigger.author_id)
      && decide ((hist.getD (hist.length - 3) default).author_id
           = trigger.author_id))

/-- A trigger message with no mention and no question mark. -/
def c5_trigger : InMsg :=
  ⟨9, 42, false, S "py", S "no question here", 5, true, 1003, none, [], 0⟩

/-- Channel history before the trigger arrived: one message by user 99,
then one by user 42 (the trigger's author). -/
def c5_pre : List HistEntry :=
  [⟨7, 99, S "b", S "first message", 1001, none, [], false⟩,
   ⟨8, 42, S "a", S "second message", 1002, none, [], false⟩]

/-- The channel history at `should_use_reply` time: the pre-existing
entries followed by the trigger's own entry. -/
def c5_hist : List HistEntry := c5_pre ++ [toEntry c5_trigger]

/-- A 22-word input that already passes the acceptance check: twenty
words `a`, then `a,!`, then `b`. -/
def c9_input : List Char :=
  joinSpace (List.replicate 20 (S "a") ++ [S "a,!", S "b"])

/-- A history entry recorded from a non-bot guild message of channel `c`. -/
def GoodEntry (c : Nat) (e : HistEntry) : Prop :=
  ∃ m : InMsg, e = toEntry m ∧ m.author_is_bot = false ∧ m.in_guild = true
    ∧ m.channel = c

/-- An active configuration: base rate 25%, 30-second rate limit. -/
def cfg0 : BotConfig := ⟨true, 1/4, 30⟩

/-- A non-bot guild message whose mention set contains user 7 (the bot). -/
def c1_msg : InMsg :=
  ⟨1, 42, false, S "user", S "hello", 5, true, 1000, none, [7], 0⟩

/-- A non-bot guild message mentioning the bot and asking a question. -/
def c8_msg : InMsg :=
  ⟨2, 42, false, S "user", S "anyone down for valorant?", 5, true, 1000,
   none, [7], 0⟩

/-- A plain non-bot guild message in channel 5. -/
def c10_msg : InMsg :=
  ⟨3, 42, false, S "user", S "hi there", 5, true, 1000, none, [], 0⟩

/-! ## Helper lemmas -/

theorem length_dropWhile_le (p : Char → Bool) :
    ∀ l : List Char, (l.dropWhile p).length ≤ l.length := by
  intro l
  induction l with
  | nil => simp [List.dropWhile]
  | cons c rest ih =>
    simp only [List.dropWhile]
    cases p c with
    | true => exact Nat.le_succ_of_le ih
    | false => exact Nat.le_refl _

theorem skipBang_length (l : List Char) : (skipBang l).length ≤ l.length := by
  match l with
  | [] => simp [skipBang]
  | c :: r =>
    simp only [skipBang]
    split <;> simp

theorem matchMentionTail_length {l r : List Char}
    (h : matchMentionTail l = some r) : r.length < l.length := by
  simp only [matchMentionTail] at h
  split at h
  · exact absurd h (by simp)
  · split at h
    · exact absurd h (by simp)
    · rename_i c r' heq
      split at h
      · cases h
        have h1 : (c :: r).length ≤ l.length := by
          rw [← heq]; exact length_dropWhile_le _ l
        simp only [List.length_cons] at h1
        omega
      · exact absurd h (by simp)

theorem matchMention_length {l r : List Char} (h : matchMention l = some r) :
    r.length < l.length := by
  match l with
  | [] => simp [matchMention] at h
  | [a] => simp [matchMention] at h
  | a :: b :: rest =>
    simp only [matchMention] at h
    split at h
    · split at h
      · have h1 := matchMentionTail_length h
        have h2 := skipBang_length rest
        simp only [List.length_cons]
        omega
      · exact absurd h (by simp)
    · exact absurd h (by simp)

theorem removeMentionsCoreF_congr :
    ∀ (f : Nat) (l : List Char), l.length ≤ f →
      removeMentionsCoreF f l = removeMentionsCoreF l.length l := by
  intro f
  induction f using Nat.strong_induction_on with
  | _ f ih =>
    intro l hl
    match f, l with
    | 0, l =>
      interval_cases hl' : l.length
      · cases l with
        | nil => rfl
        | cons c r => simp at hl'
    | f + 1, [] => rfl
    | f + 1, c :: rest =>
      simp only [List.length_cons] at hl
      simp only [removeMentionsCoreF, List.length_cons]
      cases hm : matchMention (c :: rest) with
      | some r =>
        have hr : r.length < rest.length + 1 := by
          have := matchMention_length hm
          simpa using this
        show removeMentionsCoreF f r = removeMentionsCoreF rest.length r
        rw [ih f (Nat.lt_succ_self f) r (by omega),
          ih rest.length (by omega) r (by omega)]
      | none =>
        show c :: removeMentionsCoreF f rest
          = c :: removeMentionsCoreF rest.length rest
        rw [ih f (Nat.lt_succ_self f) rest (by omega),
          ih rest.length (by omega) rest (by omega)]

theorem ciStrip_length_le :
    ∀ (ps cs rem : List Char), ciStrip ps cs = some rem →
      rem.length ≤ cs.length := by
  intro ps
  induction ps with
  | nil =>
    intro cs rem h
    simp only [ciStrip] at h
    cases h
    exact Nat.le_refl _
  | cons p ps ih =>
    intro cs rem h
    match cs with
    | [] => simp [ciStrip] at h
    | c :: cs' =>
      simp only [ciStrip] at h
      split at h
      · exact Nat.le_succ_of_le (ih cs' rem h)
      · exact absurd h (by simp)

theorem ciStrip_cons_length {p0 : Char} {ps c_rest rem : List Char}
    (h : ciStrip (p0 :: ps) c_rest = some rem) :
    rem.length < c_rest.length := by
  match c_rest with
  | [] => simp [ciStrip] at h
  | c :: rest =>
    simp only [ciStrip] at h
    split at h
    · have := ciStrip_length_le ps rest rem h
      simp only [List.length_cons]
      omega
    · exact absurd h (by simp)

theorem subScanF_congr (p0 : Char) (ps repl : List Char) :
    ∀ (f : Nat) (prevW : Bool) (l : List Char), l.length ≤ f →
      subScanF p0 ps repl f prevW l = subScanF p0 ps repl l.length prevW l := by
  intro f
  induction f using Nat.strong_induction_on with
  | _ f ih =>
    intro prevW l hl
    match f, l with
    | 0, l =>
      interval_cases hl' : l.length
      · cases l with
        | nil => rfl
        | cons c r => simp at hl'
    | f + 1, [] => rfl
    | f + 1, c :: rest =>
      simp only [List.length_cons] at hl
      simp only [subScanF, List.length_cons]
      cases prevW with
      | true =>
        simp only [if_pos]
        rw [ih f (Nat.lt_succ_self f) (isWordChar c) rest (by omega),
          ih rest.length (by omega) (isWordChar c) rest (by omega)]
      | false =>
        simp only [Bool.false_eq_true, if_false]
        cases hm : ciStrip (p0 :: ps) (c :: rest) with
        | some rem =>
          have hr : rem.length < rest.length + 1 := ciStrip_cons_length hm
          simp only []
          rw [ih f (Nat.lt_succ_self f) true rem (by omega),
            ih rest.length (by omega) true rem (by omega),
            ih f (Nat.lt_succ_self f) (isWordChar c) rest (by omega),
            ih rest.length (by omega) (isWordChar c) rest (by omega)]
        | none =>
          simp only []
          rw [ih f (Nat.lt_succ_self f) (isWordChar c) rest (by omega),
            ih rest.length (by omega) (isWordChar c) rest (by omega)]

theorem good_step {st : Nat → List HistEntry} {m : InMsg}
    (hst : ∀ c e, e ∈ st c → GoodEntry c e) :
    ∀ c e, e ∈ on_message_hist st m c → GoodEntry c e := by
  intro c e he
  simp only [on_message_hist] at he
  split at he
  · exact hst c e he
  · rename_i hguard
    split at he
    · exact hst c e he
    · simp only at he
      by_cases hc : c = m.channel
      · rw [if_pos hc] at he
        simp only [update_message_history] at he
        have he' : e ∈ st c ++ [toEntry m] := by
          split at he
          · exact List.mem_of_mem_drop he
          · exact he
        rcases List.mem_append.mp he' with h | h
        · exact hst c e h
        · have heq : e = toEntry m := by simpa using h
          have hbot : m.author_is_bot = false ∧ m.in_guild = true := by
            revert hguard
            cases m.author_is_bot <;> cases m.in_guild <;> simp
          exact ⟨m, heq, hbot.1, hbot.2, hc.symm⟩
      · rw [if_neg hc] at he
        exact hst c e he

theorem good_run :
    ∀ (msgs : List InMsg) (st : Nat → List HistEntry),
      (∀ c e, e ∈ st c → GoodEntry c e) →
      ∀ c e, e ∈ run_messages st msgs c → GoodEntry c e := by
  intro msgs
  induction msgs with
  | nil =>
    intro st hst c e he
    exact hst c e (by simpa [run_messages] using he)
  | cons m rest ih =>
    intro st hst c e he
    exact ih (on_message_hist st m) (good_step hst) c e
      (by simpa [run_messages] using he)

theorem mention_probability_clamped (cfg : BotConfig) (botUser : Option Nat)
    (b : Nat) (last : Option Rat) (now draw : Rat) (msg : InMsg)
    (hb : botUser = some b) (hm : msg.mentions.contains b = true)
    (hbot : msg.author_is_bot = false) (hact : cfg.is_active = true)
    (hrl : ∀ t : Rat, last = some t → cfg.rate_limit_seconds ≤ now - t) :
    response_probability cfg botUser last now msg = 85/100 ∧
    should_respond cfg botUser last now draw msg = decide (draw < 85/100) := by
  have hprob : response_probability cfg botUser last now msg = 85/100 := by
    cases last with
    | none =>
      simp only [response_probability, hb, bot_mentioned_in, hm, if_true]
      split_ifs <;> rw [min_eq_right (by norm_num)]
    | some t =>
      simp only [response_probability, hb, bot_mentioned_in, hm, if_true]
      split_ifs <;> rw [min_eq_right (by norm_num)]
  refine ⟨hprob, ?_⟩
  cases last with
  | none =>
    simp only [should_respond, hbot, hact, Bool.not_true, if_false, hprob]
    simp
  | some t =>
    have h1 : ¬(now - t < cfg.rate_limit_seconds) := not_lt.mpr (hrl t rfl)
    simp only [should_respond, hbot, hact, Bool.not_true, if_false, hprob]
    simp [h1]

/-! ## The claims -/

/-- C1: the claim says a direct bot mention forces the response
probability to 1.0, skips the remaining adjustments, bypasses the 0.85
cap, and makes `decide` return true on every call.  On the code the
mention branch merely sets the running probability to 1.0, the question /
gaming / recency bonuses still execute, and `min(probability, 0.85)` is
applied to this path too, so the used probability is exactly 0.85 and the
coin flip can fail: at entropy draw 0.9 the bot stays silent despite the
direct mention. -/
theorem c1_mention_probability_clamped :
    response_probability cfg0 (some 7) none 1000 c1_msg = 85/100 ∧
    should_respond cfg0 (some 7) none 1000 (9/10) c1_msg = false := by
  have h := mention_probability_clamped cfg0 (some 7) 7 none 1000 (9/10)
    c1_msg rfl (by decide) (by decide) (by decide)
    (fun t ht => absurd ht (by simp))
  refine ⟨h.1, ?_⟩
  rw [h.2]
  simp only [decide_eq_false_iff_not]
  norm_num

/-- C2: the claim says the normalizer is a two-argument function
`normalize(rawText, allowLong)` and that the dispatcher's call with the
allow-long flag succeeds and returns a string.  In the code
`StyleValidator.validate_and_adjust` declares a single non-`self`
parameter while `generate_and_send_response` passes two positional
arguments, so under Python call semantics the call raises `TypeError` and
never returns a string (the dispatcher's exception handler then drops the
response). -/
theorem c2_dispatcher_normalizer_call_raises (k : Nat)
    (response : List Char) : dispatcher_validation k response = none := rfl

/-- C3: the claim says normalizing "that was DAMN good" preserves the
ALL-CAPS token, lowercases the rest, and passes the final acceptance
check so no canned fallback is substituted.  The capitalization step does
preserve the text, but `is_valid_response` skips ALL-CAPS words in its
numerator while counting them in the denominator: the ratio is 3/4 <
80%, the check fails, and the pipeline returns a canned fallback token
("nah" at fallback draw 0) instead of the text. -/
theorem c3_allcaps_input_falls_back :
    enforce_capitalization (S "that was DAMN good") = S "that was DAMN good"
    ∧ is_valid_response (S "that was DAMN good") = false
    ∧ validate_and_adjust 0 (S "that was DAMN good") = S "nah" := by
  refine ⟨by decide, by decide, by decide⟩

/-- C4: the claim says a 429 rate-limit response triggers exactly one
delayed retry and any other failure yields no text.  The code retries by
an unbounded recursive self-call: on two consecutive 429s followed by a
success it issues a third request and returns its text, where
one-retry-only behaviour would have given up after the second 429.  The
no-text behaviour for other failures does hold. -/
theorem c4_rate_limit_retries_beyond_one :
    generate_response [.status 429, .status 429, .ok (S "hi")] = some (S "hi")
    ∧ attempts_used [.status 429, .status 429, .ok (S "hi")] = 3
    ∧ generate_response [.timeout] = none
    ∧ generate_response [.status 500] = none
    ∧ generate_response [.noChoices] = none
    ∧ generate_response [.exn] = none := by
  refine ⟨rfl, rfl, rfl, rfl, rfl, rfl⟩

/-- C5, counterexample: the claim's fourth disjunct reads the two history
entries immediately preceding the trigger; in the state where the channel
held a message by user 99 and then one by user 42 before the trigger (by
user 42, no mention, no question mark), those two preceding entries have
different authors, so the claim says broadcast — but the code replies,
because it compares the last two history entries against the trigger's
author and the last entry is the trigger itself. -/
theorem c5_two_preceding_rule_counterexample :
    should_use_reply none (S "ok") c5_trigger c5_hist = true
    ∧ claimed_should_reply none (S "ok") c5_trigger c5_hist = false := by
  refine ⟨by decide, by decide⟩

/-- C5, amended: with the channel history equal to the pre-trigger
entries followed by the trigger's own entry (as `on_message` guarantees at
dispatch time), `should_use_reply` returns reply exactly when the bot was
mentioned, or the raw generated text contains a mention token, or the
trigger contains a question mark, or the SINGLE history entry immediately
preceding the trigger shares its author (the source's comparison of the
last history entry against the trigger author is vacuous, the last entry
being the trigger itself). -/
theorem c5_reply_rule_amended (botUser : Option Nat) (resp : List Char)
    (trigger : InMsg) (pre hist : List HistEntry)
    (hh : hist = pre ++ [toEntry trigger]) :
    should_use_reply botUser resp trigger hist =
      (bot_mentioned_in botUser trigger.mentions
       || substr (S "<@") resp
       || trigger.content.contains '?'
       || (!pre.isEmpty
           && decide ((pre.getD (pre.length - 1) default).author_id
                = trigger.author_id))) := by
  subst hh
  simp only [should_use_reply]
  split_ifs with h1 h2 h3 h4
  · simp only [h1, Bool.true_or]
  · simp only [h2, Bool.true_or, Bool.or_true]
  · simp only [h3, Bool.true_or, Bool.or_true]
  · simp only [h1, h2, h3, Bool.false_or]
    match pre with
    | [] => simp at h4
    | p :: ps =>
      have hlen : ((p :: ps) ++ [toEntry trigger]).length = ps.length + 2 := by
        simp
      rw [hlen]
      have e1 : ((p :: ps) ++ [toEntry trigger]).getD (ps.length + 2 - 1)
          default = toEntry trigger := by
        have hx : ps.length + 2 - 1 = (p :: ps).length := by simp
        rw [hx, List.getD_append_right _ _ _ _ (Nat.le_refl _)]
        simp
      have e2 : ((p :: ps) ++ [toEntry trigger]).getD (ps.length + 2 - 2)
          default = (p :: ps).getD ps.length default := by
        have hx : ps.length + 2 - 2 = ps.length := by omega
        rw [hx, List.getD_append _ _ _ _ (by simp)]
      rw [e1, e2]
      simp [toEntry]
  · simp only [h1, h2, h3, Bool.false_or]
    have hpre : pre = [] := by
      cases pre with
      | nil => rfl
      | cons a as =>
        exfalso
        apply h4
        simp
    subst hpre
    simp

/-- C5, witness: the amended rule applied to the concrete state of the
counterexample — one preceding entry by the trigger's author suffices for
a reply. -/
theorem c5_reply_rule_amended_witness :
    should_use_reply none (S "ok") c5_trigger c5_hist = true := by
  rw [c5_reply_rule_amended none (S "ok") c5_trigger c5_pre c5_hist rfl]
  decide

/-- C6: the claim says a trailing ellipsis is preserved while other
trailing punctuation is stripped.  In the code `rstrip('.,!?;')` runs
first and removes the dots of the ellipsis themselves, so the subsequent
`endswith('...')` check can never hold: "hey..." normalizes to "hey",
not "hey...". -/
theorem c6_trailing_ellipsis_stripped :
    remove_ending_punctuation (S "hey...") = S "hey"
    ∧ remove_ending_punctuation (S "hey...") ≠ S "hey..." := by
  refine ⟨by decide, by decide⟩

/-- C7: for every prior patience value and every generation-service
reply, a reply that does not parse as an integer leaves the stored
patience unchanged, and a reply parsing to `n` stores `max 0 (min 100 n)`
— the value clamped to [0, 100]. -/
theorem c7_patience_parse_clamp (prior : Int) (reply : List Char) :
    (parsePyInt (pyStrip reply) = none →
      assess_patience_level prior reply = prior)
    ∧ (∀ n : Int, parsePyInt (pyStrip reply) = some n →
        assess_patience_level prior reply = max 0 (min 100 n)) := by
  constructor
  · intro h
    simp [assess_patience_level, h]
  · intro n h
    simp [assess_patience_level, h]

/-- C7, witness: reply "150" stores 100, reply "abc" leaves the prior
value 37 unchanged. -/
theorem c7_patience_parse_clamp_witness :
    assess_patience_level 37 (S "150") = 100
    ∧ assess_patience_level 37 (S "abc") = 37 := by
  constructor
  · rw [(c7_patience_parse_clamp 37 (S "150")).2 150 (by decide)]
    decide
  · exact (c7_patience_parse_clamp 37 (S "abc")).1 (by decide)

/-- C8: whenever a response was sent in the channel less than
`rate_limit_seconds` ago, `should_respond` returns false — for every
configuration, bot identity, message content, mention set and entropy
draw, before any probability computation. -/
theorem c8_rate_limited_returns_false (cfg : BotConfig)
    (botUser : Option Nat) (t now draw : Rat) (msg : InMsg)
    (h : now - t < cfg.rate_limit_seconds) :
    should_respond cfg botUser (some t) now draw msg = false := by
  simp only [should_respond]
  split_ifs with h1 h2 h3
  · rfl
  · rfl
  · rfl
  · exact absurd h (by simpa using h3)

/-- C8, witness: 10 seconds after the last response (limit 30), a
question mentioning the bot with a gaming keyword is still refused at
entropy draw 0.1. -/
theorem c8_rate_limited_returns_false_witness :
    should_respond cfg0 (some 7) (some 990) 1000 (1/10) c8_msg = false :=
  c8_rate_limited_returns_false cfg0 (some 7) 990 1000 (1/10) c8_msg
    (by norm_num [cfg0])

/-- C9: the claim says the normalizer is idempotent on every input that
already passes the acceptance check.  The 22-word input `c9_input` passes
the check, yet normalizing it truncates at the first sentence terminal
and leaves a trailing comma, which the second normalization strips: so
`normalize (normalize x)` differs from `normalize x`. -/
theorem c9_normalize_not_idempotent :
    is_valid_response c9_input = true
    ∧ validate_and_adjust 0 (validate_and_adjust 0 c9_input)
        ≠ validate_and_adjust 0 c9_input := by
  refine ⟨by decide, by decide⟩

/-- C10: every entry of every channel's message history after processing
any sequence of inbound messages from the empty state was recorded from a
non-bot, in-guild message of that channel (bot-authored and direct
messages are filtered before the history update), so the reply
heuristic's same-author comparison never meets a bot-authored entry. -/
theorem c10_history_entries_nonbot (msgs : List InMsg) (c : Nat)
    (e : HistEntry) (he : e ∈ run_messages emptyHist msgs c) :
    ∃ m : InMsg, e = toEntry m ∧ m.author_is_bot = false
      ∧ m.in_guild = true ∧ m.channel = c := by
  refine good_run msgs emptyHist ?_ c e he
  intro c e he
  simp [emptyHist] at he

/-- C10, witness: after processing one ordinary user message, its history
entry is certified to come from a non-bot guild message of channel 5. -/
theorem c10_history_entries_nonbot_witness :
    ∃ m : InMsg, toEntry c10_msg = toEntry m ∧ m.author_is_bot = false
      ∧ m.in_guild = true ∧ m.channel = 5 :=
  c10_history_entries_nonbot [c10_msg] 5 (toEntry c10_msg) (by decide)
